import Mathlib

/-!
Shallow embedding of the Agent Council frontend session controller
(`static/app.js`).  JavaScript plain objects used as dictionaries are
modelled as insertion-ordered association lists, numbers as `ℚ`, the
WebSocket/DOM side effects as explicit render/output lists, and the
mutable `state` object as an explicit `AppState` value threaded through
each operation.
-/

namespace AgentCouncil

/-- Lookup in an insertion-ordered association list (JS `obj[key]`). -/
def alistFind {α : Type} : List (String × α) → String → Option α
  | [], _ => none
  | (k, v) :: rest, key => if k = key then some v else alistFind rest key

/-- Assignment `obj[key] = v` on a JS object: overwrite in place (keeping the
original insertion position, as JS property order does) or append. -/
def alistSet {α : Type} : List (String × α) → String → α → List (String × α)
  | [], key, v => [(key, v)]
  | (k, w) :: rest, key, v =>
      if k = key then (k, v) :: rest else (k, w) :: alistSet rest key v

/-- JS `x || d` for numbers: the only falsy `ℚ` value reachable here is `0`. -/
def jsOr (v d : ℚ) : ℚ := if v = 0 then d else v

/-- JS `s || d` for strings: the empty string is falsy. -/
def jsOrS (v d : String) : String := if v = "" then d else v

/-- JS `String.prototype.trim`: strip whitespace from both ends. -/
def jsTrim (s : String) : String :=
  ⟨((s.data.dropWhile Char.isWhitespace).reverse.dropWhile Char.isWhitespace).reverse⟩

/-- Number of maximal whitespace runs in a character list; the boolean flag
records whether we are currently inside a run. -/
def wsRuns : List Char → Bool → Nat
  | [], _ => 0
  | c :: rest, inRun =>
      if c.isWhitespace then
        (if inRun then wsRuns rest true else wsRuns rest true + 1)
      else wsRuns rest false

/-- JS `content.split(/\s+/).length`: one more than the number of maximal
whitespace runs (a leading or trailing run contributes an empty field). -/
def splitWsCount (s : String) : Nat := wsRuns s.data false + 1

/-- One council from the loaded configuration (`name`, `strategy`, `agents`);
a missing `name`/`strategy` is modelled by the falsy empty string. -/
structure Council where
  name : String
  strategy : String
  agents : List String
deriving DecidableEq, Repr

/-- Per-agent score record `{ acc, comp, conc, tone }`. -/
structure Score where
  acc : ℚ
  comp : ℚ
  conc : ℚ
  tone : ℚ
deriving DecidableEq, Repr

/-- Rubric weights read from the four sliders. -/
structure Rubric where
  a : ℚ
  c : ℚ
  k : ℚ
  t : ℚ
deriving DecidableEq, Repr

/-- The global mutable `state` object of `app.js`: the timer interval handle
is abstracted to the boolean `timerRunning` (interval handle non-null). -/
structure AppState where
  councils : List (String × Council)
  selectedCouncil : String
  isRunning : Bool
  agentColors : List (String × Nat)
  nextColorIndex : Nat
  timerRunning : Bool
  scores : List (String × Score)
deriving DecidableEq, Repr

/-- One row of the rendered scoreboard. -/
structure Row where
  role : String
  overall : ℚ
  acc : ℚ
  comp : ℚ
  conc : ℚ
  tone : ℚ
deriving DecidableEq, Repr

/-- Observable render instructions emitted to the DOM. -/
inductive Render where
  | userMsg (text : String)
  | statusMsg (text : String)
  | errorMsg (text : String)
  | roundSep (round : Nat) (total : Option Nat)
  | agentCard (role : String) (model : Option String) (content : String)
      (isModerator : Bool) (colorIdx : Nat)
  | scoreboard (rows : List Row)
  | councilHeader (name : String) (strategy : String) (agentCount : Nat)
deriving DecidableEq, Repr

/-- Outbound task message sent on the WebSocket. -/
structure OutMsg where
  council : String
  task : String
deriving DecidableEq, Repr

/-- Inbound events (`e.type` dispatch); a missing `content` is the falsy
empty string; `unknown` covers any unhandled `type` tag. -/
inductive Event where
  | status (content : String)
  | roundStart (round : Nat) (totalRounds : Option Nat)
  | agentDone (agent : String) (model : Option String) (content : String)
  | moderatorDone (model : Option String) (content : String)
  | error (content : String)
  | councilDone
  | unknown
deriving DecidableEq, Repr

/-- `selectCouncil(key)`: note the source assigns `state.selectedCouncil = key`
before the `if (!council) return;` guard, so the state write happens even for
an unknown key; only the header rendering is skipped. -/
def selectCouncil (st : AppState) (key : String) : AppState × List Render :=
  let st1 := { st with selectedCouncil := key }
  match alistFind st.councils key with
  | none => (st1, [])
  | some c =>
      (st1, [Render.councilHeader (jsOrS c.name key) (jsOrS c.strategy "debate")
               c.agents.length])

/-- `colorIndex(role)`: first-seen assignment of the next palette index,
cycling `1..5`; returns the assigned index together with the updated state. -/
def colorIndex (st : AppState) (role : String) : Nat × AppState :=
  match alistFind st.agentColors role with
  | some i => (i, st)
  | none =>
      (st.nextColorIndex,
       { st with
           agentColors := st.agentColors ++ [(role, st.nextColorIndex)],
           nextColorIndex := st.nextColorIndex % 5 + 1 })

/-- The heuristic score of `recordScore`, as a pure function of the text:
`words` is `content.split(/\s+/).length` and `chars` is `content.length`. -/
def score (content : String) : Score :=
  { acc := min (98 / 10 : ℚ) (65 / 10 + ((content.length % 30 : Nat) : ℚ) / 10)
  , comp := min (98 / 10 : ℚ) (6 + ((splitWsCount content % 40 : Nat) : ℚ) / 14)
  , conc := min (98 / 10 : ℚ) (55 / 10 + ((content.length % 20 : Nat) : ℚ) / 8)
  , tone := min (98 / 10 : ℚ) (65 / 10 + ((splitWsCount content % 20 : Nat) : ℚ) / 10) }

/-- `recordScore(role, content)`: store the score record for `role`. -/
def recordScore (st : AppState) (role : String) (content : String) : AppState :=
  { st with scores := alistSet st.scores role (score content) }

/-- `getRubric()`: slider values with JS `|| default` fallbacks. -/
def getRubric (ra rc rk rt : ℚ) : Rubric :=
  { a := jsOr ra 45, c := jsOr rc 25, k := jsOr rk 15, t := jsOr rt 15 }

/-- `var total = rubric.a + rubric.c + rubric.k + rubric.t || 1;`. -/
def scoreboardTotal (r : Rubric) : ℚ := jsOr (r.a + r.c + r.k + r.t) 1

/-- The weighted overall score of one agent in `renderScoreboard`. -/
def overall (s : Score) (r : Rubric) : ℚ :=
  (s.acc * r.a + s.comp * r.c + s.conc * r.k + s.tone * r.t) / scoreboardTotal r

/-- One scoreboard row built from a score record. -/
def mkRow (role : String) (s : Score) (r : Rubric) : Row :=
  { role := role, overall := overall s r,
    acc := s.acc, comp := s.comp, conc := s.conc, tone := s.tone }

/-- `p` may be placed before `q` when sorting descending by `overall`;
JS `rows.sort(function (a, b) { return b.overall - a.overall; })` is a
stable sort with exactly this ordering. -/
def rowBefore (p q : Row) : Prop := q.overall ≤ p.overall

instance : DecidableRel rowBefore := fun p q =>
  inferInstanceAs (Decidable (q.overall ≤ p.overall))

instance : IsTotal Row rowBefore := ⟨fun p q => le_total q.overall p.overall⟩

instance : IsTrans Row rowBefore :=
  ⟨fun _ _ _ hpq hqr => le_trans hqr hpq⟩

/-- The rows of `renderScoreboard`: map the score table in first-scored
insertion order to rows, then stable-sort descending by `overall`. -/
def rankRows (scores : List (String × Score)) (r : Rubric) : List Row :=
  List.insertionSort rowBefore (scores.map fun kv => mkRow kv.1 kv.2 r)

/-- `renderScoreboard()` as a render instruction. -/
def renderScoreboard (r : Rubric) (st : AppState) : List Render :=
  [Render.scoreboard (rankRows st.scores r)]

/-- The placeholder substituted for empty or whitespace-only model output. -/
def placeholder : String := "[No response]"

/-- `(e.content || '').trim() || '[No response]'`. -/
def normalizeContent (content : String) : String :=
  jsOrS (jsTrim content) placeholder

/-- `handleEvent(e)`: dispatch on `e.type`; the rubric argument holds the
slider values read by `renderScoreboard` at that moment. -/
def handleEvent (r : Rubric) (st : AppState) (e : Event) : AppState × List Render :=
  match e with
  | .status content => (st, [Render.statusMsg content])
  | .roundStart round total => (st, [Render.roundSep round total])
  | .agentDone agent model content =>
      let c := normalizeContent content
      let p := colorIndex st agent
      (recordScore p.2 agent c, [Render.agentCard agent model c false p.1])
  | .moderatorDone model content =>
      let c := normalizeContent content
      (st, [Render.agentCard "Moderator" model c true 0])
  | .error content =>
      ({ st with isRunning := false, timerRunning := false },
       [Render.errorMsg (jsOrS content "Unknown error")])
  | .councilDone =>
      ({ st with isRunning := false, timerRunning := false },
       renderScoreboard r st ++ [Render.statusMsg "Session complete"])
  | .unknown => (st, [])

/-- `ws.onmessage`: `try { handleEvent(JSON.parse(evt.data)); } catch (_) {}` —
a failing parse (`none`) is swallowed and nothing happens. -/
def onMessage (parse : String → Option Event) (r : Rubric) (st : AppState)
    (data : String) : AppState × List Render :=
  match parse data with
  | none => (st, [])
  | some e => handleEvent r st e

/-- `sendTask()`: the guards run in source order (running → silent return,
blank task → silent return, socket not open → error message), and only a
fully successful submission resets the per-session state, records the user
message, sends the task and starts the timer. -/
def sendTask (st : AppState) (wsOpen : Bool) (inputValue : String) :
    AppState × List OutMsg × List Render :=
  if st.isRunning then (st, [], [])
  else
    let task := jsTrim inputValue
    if task = "" then (st, [], [])
    else if !wsOpen then (st, [], [Render.errorMsg "WebSocket not connected."])
    else
      ({ st with
           agentColors := [], nextColorIndex := 1, scores := [],
           isRunning := true, timerRunning := true },
       [{ council := st.selectedCouncil, task := task }],
       [Render.userMsg task])

/-- `clearChat()`: reset colors, scores and stop the timer. -/
def clearChat (st : AppState) : AppState :=
  { st with agentColors := [], nextColorIndex := 1, scores := [],
            timerRunning := false }

/-- Result of running a list of inbound events: final state, the number of
`isRunning` true→false edges, the number of observable `clearInterval` calls
(timer true→false edges), and all emitted renders in order. -/
structure RunResult where
  final : AppState
  idleTransitions : Nat
  timerStops : Nat
  renders : List Render
deriving Repr

/-- Process a list of inbound events in delivery order, counting session
terminations and timer stops. -/
def runEvents (r : Rubric) : AppState → List Event → RunResult
  | st, [] => { final := st, idleTransitions := 0, timerStops := 0, renders := [] }
  | st, e :: rest =>
      let step := handleEvent r st e
      let tail := runEvents r step.1 rest
      { final := tail.final
      , idleTransitions :=
          (if st.isRunning && !step.1.isRunning then 1 else 0) + tail.idleTransitions
      , timerStops :=
          (if st.timerRunning && !step.1.timerRunning then 1 else 0) + tail.timerStops
      , renders := step.2 ++ tail.renders }

/-- Apply `colorIndex` successively to a list of agent references. -/
def runColors : AppState → List String → AppState
  | st, [] => st
  | st, role :: rest => runColors (colorIndex st role).2 rest

/-- Invariant of the color assigner: the counter is one past the table size
modulo the palette, and the stored indices are `1, 2, 3, 4, 5, 1, 2, …` in
first-seen order. -/
def colorInv (st : AppState) : Prop :=
  st.nextColorIndex = st.agentColors.length % 5 + 1 ∧
  st.agentColors.map Prod.snd =
    (List.range st.agentColors.length).map (fun j => j % 5 + 1)

/-- A demo council used by concrete witnesses. -/
def demoCouncil : Council :=
  { name := "General", strategy := "debate", agents := ["A1", "A2"] }

/-- A concrete idle state with one loaded council. -/
def st0 : AppState :=
  { councils := [("general", demoCouncil)]
  , selectedCouncil := "general"
  , isRunning := false
  , agentColors := []
  , nextColorIndex := 1
  , timerRunning := false
  , scores := [] }

/-- A concrete running state (right after a successful submission). -/
def stRun : AppState := { st0 with isRunning := true, timerRunning := true }

/-- The spec's demo rubric `{a:45, c:25, k:15, t:15}`. -/
def demoRubric : Rubric := { a := 45, c := 25, k := 15, t := 15 }

/-- Score record of agent A in the spec's ranking example. -/
def scoreA : Score := { acc := 8, comp := 7, conc := 6, tone := 7 }

/-- Score record of agent B in the spec's ranking example. -/
def scoreB : Score := { acc := 7, comp := 8, conc := 8, tone := 6 }

/-- The spec's demo score table, A scored first. -/
def demoScores : List (String × Score) := [("A", scoreA), ("B", scoreB)]

/-! ## Basic preservation lemmas -/

theorem colorIndex_isRunning (st : AppState) (role : String) :
    (colorIndex st role).2.isRunning = st.isRunning := by
  unfold colorIndex
  cases alistFind st.agentColors role <;> rfl

theorem colorIndex_timerRunning (st : AppState) (role : String) :
    (colorIndex st role).2.timerRunning = st.timerRunning := by
  unfold colorIndex
  cases alistFind st.agentColors role <;> rfl

theorem colorIndex_scores (st : AppState) (role : String) :
    (colorIndex st role).2.scores = st.scores := by
  unfold colorIndex
  cases alistFind st.agentColors role <;> rfl

theorem handleEvent_keeps_idle (r : Rubric) (st : AppState) (e : Event)
    (h : st.isRunning = false) : (handleEvent r st e).1.isRunning = false := by
  cases e <;>
    simp [handleEvent, recordScore, colorIndex_isRunning, h]

theorem handleEvent_keeps_timer_off (r : Rubric) (st : AppState) (e : Event)
    (h : st.timerRunning = false) : (handleEvent r st e).1.timerRunning = false := by
  cases e <;>
    simp [handleEvent, recordScore, colorIndex_timerRunning, h]

theorem runEvents_keeps_idle (r : Rubric) (evs : List Event) :
    ∀ st : AppState, st.isRunning = false →
      (runEvents r st evs).final.isRunning = false := by
  induction evs with
  | nil => intro st h; simpa [runEvents] using h
  | cons e rest ih =>
      intro st h
      simpa [runEvents] using ih _ (handleEvent_keeps_idle r st e h)

theorem runEvents_keeps_timer_off (r : Rubric) (evs : List Event) :
    ∀ st : AppState, st.timerRunning = false →
      (runEvents r st evs).final.timerRunning = false := by
  induction evs with
  | nil => intro st h; simpa [runEvents] using h
  | cons e rest ih =>
      intro st h
      simpa [runEvents] using ih _ (handleEvent_keeps_timer_off r st e h)

/-! ## Association list lemmas -/

theorem alistFind_set {α : Type} (l : List (String × α)) (k : String) (v : α) :
    alistFind (alistSet l k v) k = some v := by
  induction l with
  | nil => simp [alistSet, alistFind]
  | cons p rest ih =>
      obtain ⟨k1, v1⟩ := p
      by_cases h : k1 = k <;> simp [alistSet, alistFind, h, ih]

theorem alistFind_append_left {α : Type} (l1 l2 : List (String × α)) (k : String)
    (v : α) (h : alistFind l1 k = some v) : alistFind (l1 ++ l2) k = some v := by
  induction l1 with
  | nil => simp [alistFind] at h
  | cons p rest ih =>
      obtain ⟨k1, v1⟩ := p
      by_cases hk : k1 = k
      · simpa [alistFind, hk] using h
      · rw [List.cons_append]
        rw [alistFind, if_neg hk] at h ⊢
        exact ih h

theorem alistFind_mem {α : Type} :
    ∀ (l : List (String × α)) (k : String) (v : α),
      alistFind l k = some v → (k, v) ∈ l := by
  intro l
  induction l with
  | nil => intro k v h; simp [alistFind] at h
  | cons p rest ih =>
      intro k v h
      obtain ⟨k1, v1⟩ := p
      by_cases hk : k1 = k
      · subst hk
        simp [alistFind] at h
        simp [h]
      · simp only [alistFind, if_neg hk] at h
        exact List.mem_cons_of_mem _ (ih k v h)

/-! ## C1 — council selection with an unknown key -/

/-- C1 counterexample: the claim "an unknown key leaves the previously selected
council unchanged" is false.  With only `"general"` loaded, calling
`selectCouncil` with the unknown key `"bogus"` leaves the selected-council
state equal to `"bogus"`: it is neither the previous selection nor any key
present in the configuration, because the source assigns
`state.selectedCouncil = key` before the `if (!council) return;` guard. -/
theorem C1_counterexample :
    ¬ ((selectCouncil st0 "bogus").1.selectedCouncil = st0.selectedCouncil ∨
       (alistFind st0.councils
         (selectCouncil st0 "bogus").1.selectedCouncil).isSome = true) := by
  decide

/-- C1 amended: `selectCouncil` always overwrites the selected-council state
with the key it is given, known or not; for an unknown key it only skips the
council-header UI update (no render is emitted), it does not restore the
previous selection. -/
theorem C1_selectCouncil_amended (st : AppState) (key : String) :
    (selectCouncil st key).1 = { st with selectedCouncil := key } ∧
    (alistFind st.councils key = none → (selectCouncil st key).2 = []) := by
  constructor
  · unfold selectCouncil
    cases alistFind st.councils key <;> rfl
  · intro h
    unfold selectCouncil
    rw [h]

/-- C1 witness: the amended theorem applied to the concrete unknown key. -/
theorem C1_selectCouncil_amended_witness :
    (selectCouncil st0 "bogus").1 = { st0 with selectedCouncil := "bogus" } ∧
    (selectCouncil st0 "bogus").2 = [] :=
  ⟨(C1_selectCouncil_amended st0 "bogus").1,
   (C1_selectCouncil_amended st0 "bogus").2 (by decide)⟩

/-! ## C2 — submission while running or disconnected -/

/-- C2 counterexample: the claim that a submission made while running or while
disconnected is rejected "with a user-visible message" is false at two
concrete inputs inside the claimed domain.  While running, the source hits
`if (state.isRunning) return;` and renders nothing; while idle and
disconnected with a whitespace-only task, it hits the blank-task
`if (!task) return;` before the socket check and again renders nothing. -/
theorem C2_counterexample :
    (stRun.isRunning = true ∧
      (sendTask stRun true "hello").2.2 = ([] : List Render)) ∧
    (st0.isRunning = false ∧ jsTrim "   " = "" ∧
      (sendTask st0 false "   ").2.2 = ([] : List Render)) := by
  decide

/-- C2 amended: a call to `sendTask` while a session is running or while the
socket is not open is rejected synchronously, with the whole session state
unchanged and no task message sent; while running the rejection is silent
(no render), and while idle and disconnected the user-visible error message
is rendered exactly when the trimmed task is nonempty — a blank task in that
case is rejected silently by the earlier blank-task guard. -/
theorem C2_sendTask_amended (st : AppState) (wsOpen : Bool) (input : String)
    (h : st.isRunning = true ∨ wsOpen = false) :
    (sendTask st wsOpen input).1 = st ∧
    (sendTask st wsOpen input).2.1 = [] ∧
    (st.isRunning = true → (sendTask st wsOpen input).2.2 = []) ∧
    (st.isRunning = false →
      (sendTask st wsOpen input).2.2 =
        if jsTrim input = "" then []
        else [Render.errorMsg "WebSocket not connected."]) := by
  rcases h with h | h
  · simp [sendTask, h]
  · by_cases hr : st.isRunning
    · simp [sendTask, hr]
    · simp only [Bool.not_eq_true] at hr
      by_cases ht : jsTrim input = "" <;>
        simp [sendTask, hr, ht, h]

/-- C2 witness: the amended theorem at three concrete inputs — the silent
running-state rejection, the disconnected rejection of a nonempty task with
the error message rendered, and the silent disconnected rejection of a
blank task. -/
theorem C2_sendTask_amended_witness :
    ((sendTask stRun true "hello").1 = stRun ∧
     (sendTask stRun true "hello").2.1 = [] ∧
     (sendTask stRun true "hello").2.2 = []) ∧
    ((sendTask st0 false "hello").1 = st0 ∧
     (sendTask st0 false "hello").2.1 = [] ∧
     (sendTask st0 false "hello").2.2 =
       [Render.errorMsg "WebSocket not connected."]) ∧
    (sendTask st0 false "   ").2.2 = [] := by
  have h1 := C2_sendTask_amended stRun true "hello" (Or.inl rfl)
  have h2 := C2_sendTask_amended st0 false "hello" (Or.inr rfl)
  have h3 := C2_sendTask_amended st0 false "   " (Or.inr rfl)
  refine ⟨⟨h1.1, h1.2.1, h1.2.2.1 rfl⟩, ⟨h2.1, h2.2.1, ?_⟩, ?_⟩
  · rw [h2.2.2.2 rfl, if_neg (by decide : ¬ jsTrim "hello" = "")]
  · rw [h3.2.2.2 rfl, if_pos (by decide : jsTrim "   " = "")]

/-! ## C7 — malformed inbound payloads -/

/-- C7: a transport message whose payload fails to parse is silently dropped:
`onMessage` (the model of `ws.onmessage` with its `try … catch (_) {}`)
returns the state unchanged and renders nothing. -/
theorem C7_malformed_dropped (parse : String → Option Event) (r : Rubric)
    (st : AppState) (data : String) (h : parse data = none) :
    onMessage parse r st data = (st, []) := by
  unfold onMessage
  rw [h]

/-- C7 witness: a concrete unparseable payload against the concrete state. -/
theorem C7_malformed_dropped_witness :
    onMessage (fun _ => none) demoRubric st0 "not json" = (st0, []) :=
  C7_malformed_dropped (fun _ => none) demoRubric st0 "not json" rfl

/-! ## C5 — empty model output is replaced by the placeholder -/

/-- C5: an `agent_done` event whose content trims to the empty string (empty,
missing, or whitespace-only) renders the agent card with the fixed
placeholder `"[No response]"` instead of empty content, and still records a
score for that agent computed from the placeholder text. -/
theorem C5_placeholder_substituted (r : Rubric) (st : AppState) (agent : String)
    (model : Option String) (content : String) (h : jsTrim content = "") :
    (handleEvent r st (Event.agentDone agent model content)).2 =
      [Render.agentCard agent model placeholder false (colorIndex st agent).1] ∧
    alistFind (handleEvent r st (Event.agentDone agent model content)).1.scores
        agent = some (score placeholder) := by
  have hn : normalizeContent content = placeholder := by
    simp [normalizeContent, h, jsOrS]
  constructor
  · simp [handleEvent, hn]
  · simp [handleEvent, hn, recordScore, colorIndex_scores, alistFind_set]

/-- C5 witness: submitting then receiving `agent_done` for `"Alpha"` with the
whitespace-only content `"  "` yields the placeholder card and a score record
for `"Alpha"` computed from the placeholder. -/
theorem C5_placeholder_substituted_witness :
    (handleEvent demoRubric st0 (Event.agentDone "Alpha" none "  ")).2 =
      [Render.agentCard "Alpha" none placeholder false (colorIndex st0 "Alpha").1] ∧
    alistFind (handleEvent demoRubric st0
        (Event.agentDone "Alpha" none "  ")).1.scores "Alpha" =
      some (score placeholder) :=
  C5_placeholder_substituted demoRubric st0 "Alpha" none "  " (by decide)

/-! ## C9 — event dispatch is not gated on the running flag -/

/-- C9: `handleEvent` never consults `state.isRunning`: an `agent_done`
arriving while the session is idle still renders a card and creates or
overwrites that agent's score record, and the session stays idle. -/
theorem C9_agentDone_not_gated (r : Rubric) (st : AppState) (agent : String)
    (model : Option String) (content : String) (h : st.isRunning = false) :
    alistFind (handleEvent r st (Event.agentDone agent model content)).1.scores
        agent = some (score (normalizeContent content)) ∧
    (handleEvent r st (Event.agentDone agent model content)).2 =
      [Render.agentCard agent model (normalizeContent content) false
         (colorIndex st agent).1] ∧
    (handleEvent r st (Event.agentDone agent model content)).1.isRunning = false := by
  refine ⟨?_, rfl, ?_⟩
  · simp [handleEvent, recordScore, colorIndex_scores, alistFind_set]
  · simp [handleEvent, recordScore, colorIndex_isRunning, h]

/-- C9 witness: an `agent_done` handled in the concrete idle state `st0`
still writes the score map and renders a card. -/
theorem C9_agentDone_not_gated_witness :
    alistFind (handleEvent demoRubric st0
        (Event.agentDone "Alpha" none "hi there")).1.scores "Alpha" =
      some (score (normalizeContent "hi there")) ∧
    (handleEvent demoRubric st0 (Event.agentDone "Alpha" none "hi there")).2 =
      [Render.agentCard "Alpha" none (normalizeContent "hi there") false
         (colorIndex st0 "Alpha").1] ∧
    (handleEvent demoRubric st0
        (Event.agentDone "Alpha" none "hi there")).1.isRunning = false :=
  C9_agentDone_not_gated demoRubric st0 "Alpha" none "hi there" rfl

/-! ## C8 — score sub-scores are bounded and deterministic -/

/-- C8: for every input text the four sub-scores are each in `[0, 10)`, and
scoring is a deterministic function of the text alone: equal texts give
equal sub-scores. -/
theorem C8_score_bounded_deterministic (content : String) :
    (0 ≤ (score content).acc ∧ (score content).acc < 10) ∧
    (0 ≤ (score content).comp ∧ (score content).comp < 10) ∧
    (0 ≤ (score content).conc ∧ (score content).conc < 10) ∧
    (0 ≤ (score content).tone ∧ (score content).tone < 10) ∧
    (∀ t : String, t = content → score t = score content) := by
  refine ⟨⟨?_, ?_⟩, ⟨?_, ?_⟩, ⟨?_, ?_⟩, ⟨?_, ?_⟩, fun t ht => by rw [ht]⟩
  · exact le_min (by norm_num) (by positivity)
  · exact lt_of_le_of_lt (min_le_left _ _) (by norm_num)
  · exact le_min (by norm_num) (by positivity)
  · exact lt_of_le_of_lt (min_le_left _ _) (by norm_num)
  · exact le_min (by norm_num) (by positivity)
  · exact lt_of_le_of_lt (min_le_left _ _) (by norm_num)
  · exact le_min (by norm_num) (by positivity)
  · exact lt_of_le_of_lt (min_le_left _ _) (by norm_num)

/-- C8 witness: the theorem applied to a concrete text, with the determinism
hypothesis discharged at that text. -/
theorem C8_score_bounded_deterministic_witness :
    (0 ≤ (score "hello world").acc ∧ (score "hello world").acc < 10) ∧
    score "hello world" = score "hello world" :=
  ⟨(C8_score_bounded_deterministic "hello world").1,
   (C8_score_bounded_deterministic "hello world").2.2.2.2 "hello world" rfl⟩

/-! ## C10 — sub-score floors and the overall floor -/

/-- C10: every computed sub-score is at least its additive base
(`acc ≥ 6.5`, `comp ≥ 6.0`, `conc ≥ 5.5`, `tone ≥ 6.5`), so for every rubric
of non-negative weights with positive sum every ranked agent's overall score
is at least `5.5`. -/
theorem C10_score_floor (content : String) (r : Rubric)
    (ha : 0 ≤ r.a) (hc : 0 ≤ r.c) (hk : 0 ≤ r.k) (ht : 0 ≤ r.t)
    (hsum : 0 < r.a + r.c + r.k + r.t) :
    (65 / 10 : ℚ) ≤ (score content).acc ∧
    (6 : ℚ) ≤ (score content).comp ∧
    (55 / 10 : ℚ) ≤ (score content).conc ∧
    (65 / 10 : ℚ) ≤ (score content).tone ∧
    (11 / 2 : ℚ) ≤ overall (score content) r := by
  have hacc : (65 / 10 : ℚ) ≤ (score content).acc :=
    le_min (by norm_num) (le_add_of_nonneg_right (by positivity))
  have hcomp : (6 : ℚ) ≤ (score content).comp :=
    le_min (by norm_num) (le_add_of_nonneg_right (by positivity))
  have hconc : (55 / 10 : ℚ) ≤ (score content).conc :=
    le_min (by norm_num) (le_add_of_nonneg_right (by positivity))
  have htone : (65 / 10 : ℚ) ≤ (score content).tone :=
    le_min (by norm_num) (le_add_of_nonneg_right (by positivity))
  refine ⟨hacc, hcomp, hconc, htone, ?_⟩
  have htot : scoreboardTotal r = r.a + r.c + r.k + r.t := by
    unfold scoreboardTotal jsOr
    rw [if_neg (ne_of_gt hsum)]
  rw [overall, htot, le_div_iff₀ hsum]
  have h1 : (11 / 2 : ℚ) * r.a ≤ (score content).acc * r.a :=
    mul_le_mul_of_nonneg_right (le_trans (by norm_num) hacc) ha
  have h2 : (11 / 2 : ℚ) * r.c ≤ (score content).comp * r.c :=
    mul_le_mul_of_nonneg_right (le_trans (by norm_num) hcomp) hc
  have h3 : (11 / 2 : ℚ) * r.k ≤ (score content).conc * r.k :=
    mul_le_mul_of_nonneg_right (le_trans (by norm_num) hconc) hk
  have h4 : (11 / 2 : ℚ) * r.t ≤ (score content).tone * r.t :=
    mul_le_mul_of_nonneg_right (le_trans (by norm_num) htone) ht
  linarith [h1, h2, h3, h4]

/-- C10 witness: the theorem at a concrete text and the default rubric. -/
theorem C10_score_floor_witness :
    (11 / 2 : ℚ) ≤ overall (score "hi") demoRubric :=
  (C10_score_floor "hi" demoRubric (by norm_num [demoRubric])
    (by norm_num [demoRubric]) (by norm_num [demoRubric])
    (by norm_num [demoRubric]) (by norm_num [demoRubric])).2.2.2.2

/-! ## C3 — council_done terminates the session exactly once -/

theorem runEvents_idle_count (r : Rubric) (evs : List Event) :
    ∀ st : AppState,
      (runEvents r st evs).idleTransitions =
        if st.isRunning && !(runEvents r st evs).final.isRunning then 1 else 0 := by
  induction evs with
  | nil => intro st; simp [runEvents]
  | cons e rest ih =>
      intro st
      simp only [runEvents]
      rw [ih]
      cases hr : st.isRunning
      · have h1 := handleEvent_keeps_idle r st e hr
        simp [h1]
      · cases h1 : (handleEvent r st e).1.isRunning
        · have h2 := runEvents_keeps_idle r rest _ h1
          simp [h1, h2]
        · simp [h1]

theorem runEvents_timer_count (r : Rubric) (evs : List Event) :
    ∀ st : AppState,
      (runEvents r st evs).timerStops =
        if st.timerRunning && !(runEvents r st evs).final.timerRunning then 1 else 0 := by
  induction evs with
  | nil => intro st; simp [runEvents]
  | cons e rest ih =>
      intro st
      simp only [runEvents]
      rw [ih]
      cases hr : st.timerRunning
      · have h1 := handleEvent_keeps_timer_off r st e hr
        simp [h1]
      · cases h1 : (handleEvent r st e).1.timerRunning
        · have h2 := runEvents_keeps_timer_off r rest _ h1
          simp [h1, h2]
        · simp [h1]

theorem runEvents_last_councilDone (r : Rubric) :
    ∀ (evs : List Event) (st : AppState),
      evs.getLast? = some Event.councilDone →
      (runEvents r st evs).final.isRunning = false ∧
      (runEvents r st evs).final.timerRunning = false := by
  intro evs
  induction evs with
  | nil => intro st h; simp at h
  | cons e rest ih =>
      intro st h
      cases rest with
      | nil =>
          simp [List.getLast?] at h
          subst h
          exact ⟨rfl, rfl⟩
      | cons e2 rest2 =>
          rw [List.getLast?_cons_cons] at h
          simpa [runEvents] using ih _ h

theorem getLast_mem_of_eq {α : Type} :
    ∀ (l : List α) (a : α), l.getLast? = some a → a ∈ l := by
  intro l
  induction l with
  | nil => intro a h; simp at h
  | cons x rest ih =>
      intro a h
      cases rest with
      | nil =>
          simp [List.getLast?] at h
          simp [h]
      | cons y rest2 =>
          rw [List.getLast?_cons_cons] at h
          exact List.mem_cons_of_mem _ (ih a h)

theorem runEvents_councilDone_scoreboard (r : Rubric) :
    ∀ (evs : List Event) (st : AppState), Event.councilDone ∈ evs →
      ∃ rows, Render.scoreboard rows ∈ (runEvents r st evs).renders := by
  intro evs
  induction evs with
  | nil => intro st h; simp at h
  | cons e rest ih =>
      intro st h
      simp only [runEvents, List.mem_append]
      rcases List.mem_cons.mp h with h | h
      · subst h
        exact ⟨rankRows st.scores r,
               Or.inl (by simp [handleEvent, renderScoreboard])⟩
      · obtain ⟨rows, hrows⟩ := ih _ h
        exact ⟨rows, Or.inr hrows⟩

/-- C3: starting from a running session with a live elapsed-time clock, any
sequence of inbound events ending in `council_done` flips the running flag
true→false exactly once and clears the timer interval exactly once (each
edge counted as one observable transition), a scoreboard render is emitted,
and the `council_done` handler itself moves the state to idle, stops the
timer, and renders the final ranking followed by the completion status. -/
theorem C3_councilDone_terminates_once (r : Rubric) (st : AppState)
    (evs : List Event) (hrun : st.isRunning = true)
    (htimer : st.timerRunning = true)
    (hlast : evs.getLast? = some Event.councilDone) :
    (runEvents r st evs).idleTransitions = 1 ∧
    (runEvents r st evs).timerStops = 1 ∧
    (∃ rows, Render.scoreboard rows ∈ (runEvents r st evs).renders) ∧
    (∀ s : AppState,
      (handleEvent r s Event.councilDone).1.isRunning = false ∧
      (handleEvent r s Event.councilDone).1.timerRunning = false ∧
      (handleEvent r s Event.councilDone).2 =
        [Render.scoreboard (rankRows s.scores r),
         Render.statusMsg "Session complete"]) := by
  obtain ⟨hfin, htfin⟩ := runEvents_last_councilDone r evs st hlast
  refine ⟨?_, ?_, ?_, fun s => ⟨rfl, rfl, rfl⟩⟩
  · rw [runEvents_idle_count]
    simp [hrun, hfin]
  · rw [runEvents_timer_count]
    simp [htimer, htfin]
  · exact runEvents_councilDone_scoreboard r evs st
      (getLast_mem_of_eq evs Event.councilDone hlast)

/-- C3 witness: a concrete running session processing events that end with
`council_done` transitions to idle once and stops the clock once. -/
theorem C3_councilDone_terminates_once_witness :
    (runEvents demoRubric stRun
      [Event.status "working", Event.councilDone]).idleTransitions = 1 ∧
    (runEvents demoRubric stRun
      [Event.status "working", Event.councilDone]).timerStops = 1 := by
  have h := C3_councilDone_terminates_once demoRubric stRun
    [Event.status "working", Event.councilDone] rfl rfl rfl
  exact ⟨h.1, h.2.1⟩

/-! ## C4 — the ranking computation -/

/-- C4: each agent's overall is the weighted average of the four sub-scores
over the weight sum, with the default total `1` substituted when the weight
sum is zero; the scoreboard rows are the score table sorted descending by
overall with exact ties broken by stable first-scored input order; and on the
spec's example (`A:{8,7,6,7}`, `B:{7,8,8,6}`, weights `{45,25,15,15}`)
overall(A) = 7.3, overall(B) = 7.25, so A ranks above B. -/
theorem C4_ranking (scores : List (String × Score)) (r : Rubric) :
    (∀ s : Score, overall s r =
      (s.acc * r.a + s.comp * r.c + s.conc * r.k + s.tone * r.t) /
        scoreboardTotal r) ∧
    (r.a + r.c + r.k + r.t = 0 → scoreboardTotal r = 1) ∧
    (r.a + r.c + r.k + r.t ≠ 0 →
      scoreboardTotal r = r.a + r.c + r.k + r.t) ∧
    List.Sorted rowBefore (rankRows scores r) ∧
    List.Perm (rankRows scores r) (scores.map fun kv => mkRow kv.1 kv.2 r) ∧
    (∀ x y : Row,
      List.Sublist [x, y] (scores.map fun kv => mkRow kv.1 kv.2 r) →
      y.overall ≤ x.overall → List.Sublist [x, y] (rankRows scores r)) ∧
    (overall scoreA demoRubric = 73 / 10 ∧
     overall scoreB demoRubric = 29 / 4 ∧
     (rankRows demoScores demoRubric).map Row.role = ["A", "B"]) := by
  refine ⟨fun s => rfl, ?_, ?_, ?_, ?_, ?_, ?_, ?_, ?_⟩
  · intro h
    simp [scoreboardTotal, jsOr, h]
  · intro h
    simp [scoreboardTotal, jsOr, h]
  · exact List.sorted_insertionSort rowBefore _
  · exact List.perm_insertionSort rowBefore _
  · exact fun x y h hxy => List.pair_sublist_insertionSort hxy h
  · norm_num [overall, scoreboardTotal, jsOr, scoreA, demoRubric]
  · norm_num [overall, scoreboardTotal, jsOr, scoreB, demoRubric]
  · have hA : overall scoreA demoRubric = 73 / 10 := by
      norm_num [overall, scoreboardTotal, jsOr, scoreA, demoRubric]
    have hB : overall scoreB demoRubric = 29 / 4 := by
      norm_num [overall, scoreboardTotal, jsOr, scoreB, demoRubric]
    have hle : rowBefore (mkRow "A" scoreA demoRubric)
        (mkRow "B" scoreB demoRubric) := by
      show (mkRow "B" scoreB demoRubric).overall ≤
        (mkRow "A" scoreA demoRubric).overall
      simp only [mkRow]
      rw [hA, hB]
      norm_num
    have hsort : rankRows demoScores demoRubric =
        [mkRow "A" scoreA demoRubric, mkRow "B" scoreB demoRubric] := by
      simp only [rankRows, demoScores, List.map]
      simp only [List.insertionSort, List.orderedInsert]
      rw [if_pos hle]
    rw [hsort]
    simp [mkRow]

/-- C4 witness: the zero-weight default discharged at the all-zero rubric,
and the example ranking order. -/
theorem C4_ranking_witness :
    scoreboardTotal { a := 0, c := 0, k := 0, t := 0 } = 1 ∧
    (rankRows demoScores demoRubric).map Row.role = ["A", "B"] :=
  ⟨(C4_ranking [] { a := 0, c := 0, k := 0, t := 0 }).2.1 (by norm_num),
   (C4_ranking demoScores demoRubric).2.2.2.2.2.2.2.2⟩

/-! ## C6 — stable first-seen cyclic color assignment -/

theorem colorIndex_found (st : AppState) (role : String) (i : Nat)
    (h : alistFind st.agentColors role = some i) :
    colorIndex st role = (i, st) := by
  unfold colorIndex
  rw [h]

theorem colorIndex_new (st : AppState) (role : String)
    (h : alistFind st.agentColors role = none) :
    colorIndex st role =
      (st.nextColorIndex,
       { st with
           agentColors := st.agentColors ++ [(role, st.nextColorIndex)],
           nextColorIndex := st.nextColorIndex % 5 + 1 }) := by
  unfold colorIndex
  rw [h]

theorem alistFind_append_self {α : Type} (l : List (String × α)) (k : String)
    (v : α) (h : alistFind l k = none) : alistFind (l ++ [(k, v)]) k = some v := by
  induction l with
  | nil => simp [alistFind]
  | cons p rest ih =>
      obtain ⟨k1, v1⟩ := p
      by_cases hk : k1 = k
      · rw [alistFind, if_pos hk] at h
        exact absurd h (by simp)
      · rw [alistFind, if_neg hk] at h
        rw [List.cons_append, alistFind, if_neg hk]
        exact ih h

theorem colorIndex_preserves (st : AppState) (role0 role : String) (i : Nat)
    (h : alistFind st.agentColors role = some i) :
    alistFind (colorIndex st role0).2.agentColors role = some i := by
  cases hf : alistFind st.agentColors role0 with
  | some j =>
      rw [colorIndex_found st role0 j hf]
      exact h
  | none =>
      rw [colorIndex_new st role0 hf]
      exact alistFind_append_left _ _ _ _ h

theorem runColors_preserves (roles : List String) :
    ∀ (st : AppState) (role : String) (i : Nat),
      alistFind st.agentColors role = some i →
      alistFind (runColors st roles).agentColors role = some i := by
  induction roles with
  | nil => intro st role i h; exact h
  | cons r0 rest ih =>
      intro st role i h
      exact ih _ role i (colorIndex_preserves st r0 role i h)

theorem colorInv_colorIndex (st : AppState) (role : String)
    (h : colorInv st) : colorInv (colorIndex st role).2 := by
  obtain ⟨hc, hm⟩ := h
  cases hf : alistFind st.agentColors role with
  | some j =>
      rw [colorIndex_found st role j hf]
      exact ⟨hc, hm⟩
  | none =>
      rw [colorIndex_new st role hf]
      constructor
      · show st.nextColorIndex % 5 + 1 =
          (st.agentColors ++ [(role, st.nextColorIndex)]).length % 5 + 1
        rw [hc]
        simp only [List.length_append, List.length_cons, List.length_nil]
        omega
      · show (st.agentColors ++ [(role, st.nextColorIndex)]).map Prod.snd =
          (List.range
            (st.agentColors ++ [(role, st.nextColorIndex)]).length).map
            (fun j => j % 5 + 1)
        rw [List.map_append, hm, hc]
        simp [List.range_succ]

theorem colorInv_runColors (roles : List String) :
    ∀ st : AppState, colorInv st → colorInv (runColors st roles) := by
  induction roles with
  | nil => intro st h; exact h
  | cons r0 rest ih =>
      intro st h
      exact ih _ (colorInv_colorIndex st r0 h)

theorem colorInv_index (st : AppState) (h : colorInv st) (j : Nat)
    (hj : j < st.agentColors.length) :
    (st.agentColors.get ⟨j, hj⟩).2 = j % 5 + 1 := by
  have e := congrArg (fun t => t[j]?) h.2
  simp only [List.getElem?_map] at e
  rw [List.getElem?_eq_getElem hj] at e
  rw [List.getElem?_eq_getElem (by simpa using hj)] at e
  simp only [Option.map_some', List.getElem_range, Option.some.injEq] at e
  simpa [List.get_eq_getElem] using e

theorem colorInv_injective (st : AppState) (h : colorInv st)
    (hlen : st.agentColors.length ≤ 5) (x y : String) (ix iy : Nat)
    (hxy : x ≠ y) (hx : alistFind st.agentColors x = some ix)
    (hy : alistFind st.agentColors y = some iy) : ix ≠ iy := by
  obtain ⟨n1, hn1⟩ := List.get_of_mem (alistFind_mem _ x ix hx)
  obtain ⟨n2, hn2⟩ := List.get_of_mem (alistFind_mem _ y iy hy)
  have hne : (n1 : Nat) ≠ (n2 : Nat) := by
    intro he
    apply hxy
    have hg : st.agentColors.get n1 = st.agentColors.get n2 := by
      congr 1
      exact Fin.ext he
    rw [hn1, hn2] at hg
    exact congrArg Prod.fst hg
  have v1 : ix = (n1 : Nat) % 5 + 1 := by
    have hv := colorInv_index st h n1 n1.2
    rw [hn1] at hv
    exact hv
  have v2 : iy = (n2 : Nat) % 5 + 1 := by
    have hv := colorInv_index st h n2 n2.2
    rw [hn2] at hv
    exact hv
  have hb1 : (n1 : Nat) < st.agentColors.length := n1.2
  have hb2 : (n2 : Nat) < st.agentColors.length := n2.2
  omega

theorem handleEvent_preserves_colors (r : Rubric) (st : AppState) (e : Event)
    (role : String) (i : Nat) (h : alistFind st.agentColors role = some i) :
    alistFind (handleEvent r st e).1.agentColors role = some i := by
  cases e with
  | agentDone a m c =>
      show alistFind
        (recordScore (colorIndex st a).2 a (normalizeContent c)).agentColors
        role = some i
      simp only [recordScore]
      exact colorIndex_preserves st a role i h
  | status c => exact h
  | roundStart round total => exact h
  | moderatorDone m c => exact h
  | error c => exact h
  | councilDone => exact h
  | unknown => exact h

/-- C6: the color assigner is stable and first-seen cyclic. A known name
returns its stored index and leaves the state untouched; a first reference is
assigned the current counter, the counter advances cyclically over the
palette of size 5, and the assignment is remembered; existing assignments
survive any further `colorIndex` call and any handled event; from a reset
state the table always holds indices `1,2,3,4,5,1,2,…` in first-seen order
(so at most 5 names get pairwise distinct indices, and later names reuse
them cyclically); the moderator branch of `handleEvent` never touches the
palette state; and the counter and mapping are reset exactly by a successful
task submission and by the clear-session action. -/
theorem C6_color_assignment (r : Rubric) :
    (∀ (st : AppState) (role : String) (i : Nat),
       alistFind st.agentColors role = some i → colorIndex st role = (i, st)) ∧
    (∀ (st : AppState) (role : String),
       alistFind st.agentColors role = none →
         (colorIndex st role).1 = st.nextColorIndex ∧
         (colorIndex st role).2.nextColorIndex = st.nextColorIndex % 5 + 1 ∧
         alistFind (colorIndex st role).2.agentColors role =
           some st.nextColorIndex) ∧
    (∀ (roles : List String) (st : AppState) (role : String) (i : Nat),
       alistFind st.agentColors role = some i →
         alistFind (runColors st roles).agentColors role = some i) ∧
    (∀ (roles : List String) (st : AppState),
       colorInv st → colorInv (runColors st roles)) ∧
    (∀ st : AppState, st.agentColors = [] → st.nextColorIndex = 1 →
       colorInv st) ∧
    (∀ st : AppState, colorInv st →
       ∀ (j : Nat) (hj : j < st.agentColors.length),
         (st.agentColors.get ⟨j, hj⟩).2 = j % 5 + 1) ∧
    (∀ st : AppState, colorInv st → st.agentColors.length ≤ 5 →
       ∀ (x y : String) (ix iy : Nat), x ≠ y →
         alistFind st.agentColors x = some ix →
         alistFind st.agentColors y = some iy → ix ≠ iy) ∧
    (∀ (st : AppState) (m : Option String) (c : String),
       (handleEvent r st (Event.moderatorDone m c)).1.agentColors =
           st.agentColors ∧
       (handleEvent r st (Event.moderatorDone m c)).1.nextColorIndex =
           st.nextColorIndex) ∧
    (∀ (st : AppState) (e : Event) (role : String) (i : Nat),
       alistFind st.agentColors role = some i →
         alistFind (handleEvent r st e).1.agentColors role = some i) ∧
    (∀ (st : AppState) (wsOpen : Bool) (input : String),
       st.isRunning = false → jsTrim input ≠ "" → wsOpen = true →
         (sendTask st wsOpen input).1.agentColors = [] ∧
         (sendTask st wsOpen input).1.nextColorIndex = 1) ∧
    (∀ st : AppState,
       (clearChat st).agentColors = [] ∧ (clearChat st).nextColorIndex = 1) := by
  refine ⟨colorIndex_found, ?_, runColors_preserves, colorInv_runColors,
    ?_, colorInv_index, colorInv_injective, fun st m c => ⟨rfl, rfl⟩,
    handleEvent_preserves_colors r, ?_, fun st => ⟨rfl, rfl⟩⟩
  · intro st role h
    rw [colorIndex_new st role h]
    exact ⟨rfl, rfl, alistFind_append_self _ _ _ h⟩
  · intro st h1 h2
    constructor
    · rw [h1, h2]
      rfl
    · rw [h1]
      rfl
  · intro st wsOpen input hr ht hw
    simp [sendTask, hr, ht, hw]

/-- C6 witness: concrete instances — a stored name returns its index with the
state unchanged, a fresh name gets the counter, and clearing resets. -/
theorem C6_color_assignment_witness :
    colorIndex { st0 with agentColors := [("Alpha", 1)], nextColorIndex := 2 }
        "Alpha" =
      (1, { st0 with agentColors := [("Alpha", 1)], nextColorIndex := 2 }) ∧
    (colorIndex st0 "Beta").1 = 1 ∧
    (clearChat st0).agentColors = [] ∧ (clearChat st0).nextColorIndex = 1 := by
  obtain ⟨h1, h2, h3, h4, h5, h6, h7, h8, h9, h10, h11⟩ :=
    C6_color_assignment demoRubric
  refine ⟨h1 _ "Alpha" 1 (by decide), ?_, (h11 st0).1, (h11 st0).2⟩
  exact (h2 st0 "Beta" (by decide)).1

end AgentCouncil
